import Mathlib

/-!
Verification of the StringAnalyzer service (src/main.py).

The development shallowly embeds the core of the service: the string
property calculators, the SHA-256 identity encoder, the in-memory record
store (a Python dict, modelled as an insertion-ordered association list),
the structured filter endpoint, and the heuristic natural-language query
translator.  Machine integers are modelled as `Nat`/`Int` with explicit
`% 2^32` where the hash arithmetic of the source wraps; fallible code returns
`Except`.
-/

/-- Errors surfaced by the service.  `http s d` embeds
`HTTPException(status_code = s, detail = d)`; `attributeError` embeds a
Python `AttributeError` escaping a handler (an unhandled exception). -/
inductive PyError where
  | http (status : Nat) (detail : String)
  | attributeError (msg : String)
deriving DecidableEq, Repr

deriving instance DecidableEq for Except

/-! ## SHA-256 (embedding of `hashlib.sha256(text.encode("utf-8")).hexdigest()`)

`sha_encoder` in the source calls the standard library implementation of SHA-256 and
hex-encodes the digest.  The algorithm is reproduced here over `Nat`
with explicit reduction modulo `2^32`. -/

/-- Reduce modulo `2^32` (32-bit word arithmetic). -/
def m32 (x : Nat) : Nat := x % 4294967296

/-- Right rotation of a 32-bit word. -/
def rotr (n x : Nat) : Nat := m32 ((x >>> n) ||| (x <<< (32 - n)))

def sigBig0 (x : Nat) : Nat := rotr 2 x ^^^ rotr 13 x ^^^ rotr 22 x

def sigBig1 (x : Nat) : Nat := rotr 6 x ^^^ rotr 11 x ^^^ rotr 25 x

def sigSmall0 (x : Nat) : Nat := rotr 7 x ^^^ rotr 18 x ^^^ (x >>> 3)

def sigSmall1 (x : Nat) : Nat := rotr 17 x ^^^ rotr 19 x ^^^ (x >>> 10)

def shaCh (x y z : Nat) : Nat := (x &&& y) ^^^ ((x ^^^ 0xffffffff) &&& z)

def shaMaj (x y z : Nat) : Nat := (x &&& y) ^^^ (x &&& z) ^^^ (y &&& z)

/-- The 64 SHA-256 round constants of FIPS 180-4 (in decimal). -/
def shaK : List Nat :=
  [1116352408, 1899447441, 3049323471, 3921009573, 961987163,
   1508970993, 2453635748, 2870763221, 3624381080, 310598401,
   607225278, 1426881987, 1925078388, 2162078206, 2614888103,
   3248222580, 3835390401, 4022224774, 264347078, 604807628,
   770255983, 1249150122, 1555081692, 1996064986, 2554220882,
   2821834349, 2952996808, 3210313671, 3336571891, 3584528711,
   113926993, 338241895, 666307205, 773529912, 1294757372,
   1396182291, 1695183700, 1986661051, 2177026350, 2456956037,
   2730485921, 2820302411, 3259730800, 3345764771, 3516065817,
   3600352804, 4094571909, 275423344, 430227734, 506948616,
   659060556, 883997877, 958139571, 1322822218, 1537002063,
   1747873779, 1955562222, 2024104815, 2227730452, 2361852424,
   2428436474, 2756734187, 3204031479, 3329325298]

/-- Working state of the compression function: eight 32-bit words. -/
structure SHAState where
  a : Nat
  b : Nat
  c : Nat
  d : Nat
  e : Nat
  f : Nat
  g : Nat
  h : Nat
deriving DecidableEq, Repr

/-- Initial hash value of FIPS 180-4 (in decimal). -/
def sha256init : SHAState :=
  ⟨1779033703, 3144134277, 1013904242, 2773480762,
   1359893119, 2600822924, 528734635, 1541459225⟩

/-- UTF-8 encoding of one code point (embedding of `str.encode("utf-8")`). -/
def utf8Encode (c : Char) : List Nat :=
  let n := c.toNat
  if n < 0x80 then [n]
  else if n < 0x800 then
    [0xc0 ||| (n >>> 6), 0x80 ||| (n &&& 0x3f)]
  else if n < 0x10000 then
    [0xe0 ||| (n >>> 12), 0x80 ||| ((n >>> 6) &&& 0x3f), 0x80 ||| (n &&& 0x3f)]
  else
    [0xf0 ||| (n >>> 18), 0x80 ||| ((n >>> 12) &&& 0x3f),
     0x80 ||| ((n >>> 6) &&& 0x3f), 0x80 ||| (n &&& 0x3f)]

/-- Big-endian 8-byte encoding of the bit length of the message. -/
def lenBytes (len : Nat) : List Nat :=
  let b := 8 * len
  [(b >>> 56) % 256, (b >>> 48) % 256, (b >>> 40) % 256, (b >>> 32) % 256,
   (b >>> 24) % 256, (b >>> 16) % 256, (b >>> 8) % 256, b % 256]

/-- Group a byte list into big-endian 32-bit words. -/
def toWords : List Nat → List Nat
  | b0 :: b1 :: b2 :: b3 :: rest =>
      (b0 * 0x1000000 + b1 * 0x10000 + b2 * 0x100 + b3) :: toWords rest
  | _ => []

/-- Extend the 16-word message schedule by `fuel` further words
(`fuel = 48` yields words 16..63). -/
def extendSchedule (w : List Nat) : Nat → List Nat
  | 0 => w
  | fuel + 1 =>
      let nw := m32 (sigSmall1 (w.getD (w.length - 2) 0) + w.getD (w.length - 7) 0 +
                     sigSmall0 (w.getD (w.length - 15) 0) + w.getD (w.length - 16) 0)
      extendSchedule (w ++ [nw]) fuel

/-- One round of the compression function; `kw` is the pair of the round
constant and the schedule word. -/
def compressRound (s : SHAState) (kw : Nat × Nat) : SHAState :=
  let t1 := m32 (s.h + sigBig1 s.e + shaCh s.e s.f s.g + kw.1 + kw.2)
  let t2 := m32 (sigBig0 s.a + shaMaj s.a s.b s.c)
  ⟨m32 (t1 + t2), s.a, s.b, s.c, m32 (s.d + t1), s.e, s.f, s.g⟩

/-- Process one 64-byte chunk. -/
def processChunk (h0 : SHAState) (chunk : List Nat) : SHAState :=
  let w := extendSchedule (toWords chunk) 48
  let s := (shaK.zip w).foldl compressRound h0
  ⟨m32 (h0.a + s.a), m32 (h0.b + s.b), m32 (h0.c + s.c), m32 (h0.d + s.d),
   m32 (h0.e + s.e), m32 (h0.f + s.f), m32 (h0.g + s.g), m32 (h0.h + s.h)⟩

/-- Split the padded message into 64-byte blocks.  The fuel argument only
bounds the recursion structurally: every step consumes at least one byte,
so with fuel `l.length` (see `toBlocks`) the `0` case is never reached on
a non-empty list. -/
def toBlocksF : Nat → List Nat → List (List Nat)
  | _, [] => []
  | 0, l => [l]
  | fuel + 1, c :: rest => ((c :: rest).take 64) :: toBlocksF fuel ((c :: rest).drop 64)

def toBlocks (l : List Nat) : List (List Nat) := toBlocksF l.length l

/-- Lower-case hex digit for a nibble. -/
def hexDigit (n : Nat) : Char :=
  if n < 10 then Char.ofNat (48 + n) else Char.ofNat (87 + n)

/-- Fixed-width (8 hex digits) rendering of a 32-bit word, most
significant nibble first. -/
def hex8 (w : Nat) : List Char :=
  [hexDigit ((w >>> 28) &&& 15), hexDigit ((w >>> 24) &&& 15),
   hexDigit ((w >>> 20) &&& 15), hexDigit ((w >>> 16) &&& 15),
   hexDigit ((w >>> 12) &&& 15), hexDigit ((w >>> 8) &&& 15),
   hexDigit ((w >>> 4) &&& 15), hexDigit (w &&& 15)]

/-- The 64-character hexdigest of a final hash state. -/
def shaHex (s : SHAState) : List Char :=
  hex8 s.a ++ hex8 s.b ++ hex8 s.c ++ hex8 s.d ++
  hex8 s.e ++ hex8 s.f ++ hex8 s.g ++ hex8 s.h

/-- Embedding of `sha_encoder` (src/main.py lines 24-27):
`hashlib.sha256(text.encode("utf-8")).hexdigest()`. -/
def sha_encoder (text : String) : String :=
  let msg := text.data.flatMap utf8Encode
  let pad := List.replicate ((64 - ((msg.length + 9) % 64)) % 64) 0
  let padded := msg ++ [0x80] ++ pad ++ lenBytes msg.length
  let s := (toBlocks padded).foldl processChunk sha256init
  String.mk (shaHex s)

/-! ## Property calculators (src/main.py lines 30-49) -/

/-- Embedding of Python `str.lower` (ASCII case folding; the example
inputs of the specification are ASCII). -/
def pyLower (s : String) : String := String.mk (s.data.map Char.toLower)

/-- Embedding of `is_palindrome` (lines 30-31):
`text.lower() == text.lower()[::-1]`. -/
def is_palindrome (text : String) : Bool :=
  (pyLower text).data == (pyLower text).data.reverse

/-- Python `str.isspace` characters (ASCII subset; `str.split()` with no
argument splits on runs of these). -/
def pyIsSpace (c : Char) : Bool :=
  c == ' ' || c == '\t' || c == '\n' || c == '\x0d' || c == '\x0b' || c == '\x0c'

/-- Count of maximal non-whitespace runs; the flag records whether the
scan is currently inside a word.  `len(text.split())` equals
`wcAux text.data false`. -/
def wcAux : List Char → Bool → Nat
  | [], _ => 0
  | c :: rest, inWord =>
      if pyIsSpace c then wcAux rest false
      else (if inWord then 0 else 1) + wcAux rest true

/-- Embedding of `word_count` (lines 34-35): `len(text.split())`. -/
def word_count (text : String) : Nat := wcAux text.data false

/-- Embedding of `unique_chars` (lines 38-39): `len(set(text))`, the
number of distinct characters. -/
def unique_chars (text : String) : Nat := text.data.dedup.length

/-- Does the frequency dict already have key `c` (`char in frequency`)? -/
def hasKey : List (Char × Nat) → Char → Bool
  | [], _ => false
  | (k, _) :: rest, c => k == c || hasKey rest c

/-- Increment the count stored at key `c`, keeping the key in place
(`frequency[char] += 1` on an existing key). -/
def bump : List (Char × Nat) → Char → List (Char × Nat)
  | [], _ => []
  | (k, n) :: rest, c =>
      if k = c then (k, n + 1) :: rest else (k, n) :: bump rest c

/-- One iteration of the loop body of `count_char_frequency_dict`:
increment an existing key or append a new key with count 1 (Python dicts
preserve insertion order). -/
def freqStep (freq : List (Char × Nat)) (c : Char) : List (Char × Nat) :=
  if hasKey freq c then bump freq c else freq ++ [(c, 1)]

/-- Embedding of `count_char_frequency_dict` (lines 42-49). -/
def count_char_frequency_dict (text : String) : List (Char × Nat) :=
  text.data.foldl freqStep []

/-! ## Data model and the record store -/

/-- The `properties` object built by `check_string` (lines 72-79). -/
structure Props where
  length : Nat
  is_palindrome : Bool
  unique_characters : Nat
  word_count : Nat
  sha256_hash : String
  character_frequency_map : List (Char × Nat)
deriving DecidableEq, Repr

/-- A stored analysis record (lines 68-81).  The keys of the source dict are
`id`, `value`, `properties` and `created at`; `datetime.now(timezone.utc)`
is modelled as an abstract tick passed in by the caller. -/
structure Record where
  id : String
  value : String
  properties : Props
  created_at : Nat
deriving DecidableEq, Repr

/-- `analysis_db`: a Python dict from id to record, modelled as an
insertion-ordered association list with unique keys. -/
abbrev Store := List (String × Record)

/-- Dict read: first (only) binding of `key`, if any. -/
def dictGet : Store → String → Option Record
  | [], _ => none
  | (k, v) :: rest, key => if k = key then some v else dictGet rest key

/-- Dict write `db[key] = v`: replace in place if the key exists
(position preserved, as for Python dicts), else append. -/
def dictSet : Store → String → Record → Store
  | [], key, v => [(key, v)]
  | (k, w) :: rest, key, v =>
      if k = key then (k, v) :: rest else (k, w) :: dictSet rest key v

/-- The property set computed for a text by `check_string` (lines 72-79). -/
def computeProps (text : String) : Props :=
  { length := text.length
    is_palindrome := is_palindrome text
    unique_characters := unique_chars text
    word_count := word_count text
    sha256_hash := sha_encoder text
    character_frequency_map := count_char_frequency_dict text }

/-- The record `check_string` stores for `text` at tick `now`
(lines 68-81). -/
def mkRecord (text : String) (now : Nat) : Record :=
  { id := sha_encoder text
    value := text
    properties := computeProps text
    created_at := now }

/-- Line 84 of the source reads `if id in analysis_db:` where `id` is
the Python builtin function, not the local `string_id`.  A function object
never compares equal to the string keys of the dict, so the membership test is
false in every reachable state; it is embedded as the constantly false
test it is. -/
def builtinIdInDb (_db : Store) : Bool := false

/-- Line 90 reads `if text is None:`.  `data.text` is typed `str` on the
pydantic model `String_to_analyze`, so by the time the handler body runs
the value is a string and the test is false. -/
def textIsNone (_text : String) : Bool := false

/-- Line 97 reads `if type(text) is not str:`; false for the same reason
as `textIsNone`. -/
def textIsNotStr (_text : String) : Bool := false

/-- Embedding of the handler `check_string` (lines 56-104).  Note the
order of operations of the source: the record is written into `analysis_db`
first, and the three error checks run only afterwards (and are all dead,
see `builtinIdInDb`, `textIsNone`, `textIsNotStr`).  Returns the handler
result together with the store left behind. -/
def check_string (text : String) (db : Store) (now : Nat) :
    Except PyError Record × Store :=
  let string_id := sha_encoder text
  let db1 := dictSet db string_id (mkRecord text now)
  if builtinIdInDb db1 then
    (.error (.http 409 "String already exists in the system"), db1)
  else if textIsNone text then
    (.error (.http 400 "Invalid request body or missing \x27value\x27 field"), db1)
  else if textIsNotStr text then
    (.error (.http 422 "Invalid data type for \x27value\x27 (must be string)"), db1)
  else
    match dictGet db1 string_id with
    | some r => (.ok r, db1)
    | none => (.error (.http 500 "KeyError"), db1)

/-- The request body of the analyze-and-store operation before pydantic
validation: the `text` field may be absent or null, hold a non-string
value, or hold a string. -/
inductive ReqText where
  | missing
  | notStr
  | str (s : String)

/-- The full analyze-and-store operation: FastAPI validates the body
against `String_to_analyze` (line 15-16, `text : str`) and rejects a
missing, null or non-string `text` with a validation error before the
handler body runs; a string reaches `check_string`. -/
def analyze_and_store (body : ReqText) (db : Store) (now : Nat) :
    Except PyError Record × Store :=
  match body with
  | .missing => (.error (.http 422 "Field required"), db)
  | .notStr => (.error (.http 422 "Input should be a valid string"), db)
  | .str t => check_string t db now

/-- Embedding of the handler `get_string` (lines 108-118): a plain dict
lookup on the given string, 404 when it is not a key. -/
def get_string (string_id : String) (db : Store) : Except PyError Record :=
  match dictGet db string_id with
  | some r => .ok r
  | none => .error (.http 404 "String does not exist in the system")

/-! ## Structured filtering (src/main.py lines 121-152) -/

/-- The Python substring test `needle in hay` over the characters of the
two strings. -/
def containsSub : List Char → List Char → Bool
  | needle, [] => needle.isEmpty
  | needle, c :: rest => needle.isPrefixOf (c :: rest) || containsSub needle rest

/-- The filter condition of the loop body of `filter_string`
(lines 144-150), one conjunct per optional query parameter, in the
order of the source; `text_length` there is `len(string["value"])`. -/
def filterPred (is_palindrome_q : Option Bool) (min_length max_length : Option Int)
    (word_count_q : Option Int) (contains_character : Option String)
    (s : Record) : Bool :=
  (match is_palindrome_q with
   | some b => s.properties.is_palindrome == b
   | none => true) &&
  (match word_count_q with
   | some n => (s.properties.word_count : Int) == n
   | none => true) &&
  (match min_length with
   | some n => decide ((s.value.length : Int) ≥ n)
   | none => true) &&
  (match max_length with
   | some n => decide ((s.value.length : Int) ≤ n)
   | none => true) &&
  (match contains_character with
   | some c => containsSub c.data s.value.data
   | none => true)

/-- Embedding of the handler `filter_string` (lines 121-152): boundary
validation first (400 when both bounds are given and inverted), then a
conjunctive scan of the store in insertion order. -/
def filter_string (is_palindrome_q : Option Bool) (min_length max_length : Option Int)
    (word_count_q : Option Int) (contains_character : Option String)
    (db : Store) : Except PyError (List Record) :=
  let bad : Bool :=
    match min_length, max_length with
    | some a, some b => decide (a > b)
    | _, _ => false
  if bad then .error (.http 400 " Invalid query parameter values or types")
  else .ok ((db.map Prod.snd).filter
    (filterPred is_palindrome_q min_length max_length word_count_q contains_character))

/-! ## Natural-language query translation (src/main.py lines 155-200) -/

/-- The filter dict built by `parse_natural_language_query`; a field is
`none` when the corresponding key is absent. -/
structure Filters where
  word_count : Option Int := none
  is_palindrome : Option Bool := none
  min_length : Option Int := none
  contains_character : Option String := none
  contains_vowel : Option Bool := none
deriving DecidableEq, Repr

/-- Python `str.split(sep)` for a non-empty separator: split on every
non-overlapping occurrence, scanning left to right.  The fuel argument
only bounds the recursion structurally: every step consumes at least one
character (the separator-match branch requires a non-empty separator), so
with fuel `s.length` (see `pySplit`) the `0` case is never reached on a
non-empty list. -/
def pySplitF (sep : List Char) : Nat → List Char → List (List Char)
  | _, [] => [[]]
  | 0, s => [s]
  | fuel + 1, c :: rest =>
      if sep ≠ [] ∧ sep.isPrefixOf (c :: rest) then
        [] :: pySplitF sep fuel (List.drop sep.length (c :: rest))
      else
        match pySplitF sep fuel rest with
        | [] => [[c]]
        | hd :: tl => (c :: hd) :: tl

def pySplit (sep : List Char) (s : List Char) : List (List Char) :=
  pySplitF sep s.length s

/-- Embedding of Python `int(s)`: strip surrounding whitespace, then an
optional sign followed by at least one ASCII digit (numeric-literal
underscores and non-ASCII digits are not modelled); `none` is a
`ValueError`. -/
def digitsToNat (ds : List Char) : Nat :=
  ds.foldl (fun n c => n * 10 + (c.toNat - 48)) 0

def digitsVal (ds : List Char) : Option Int :=
  if ds ≠ [] ∧ ds.all Char.isDigit then some (digitsToNat ds) else none

def pyInt (s : List Char) : Option Int :=
  let t := ((s.dropWhile pyIsSpace).reverse.dropWhile pyIsSpace).reverse
  match t with
  | '+' :: ds => digitsVal ds
  | '-' :: ds => (digitsVal ds).map (fun n => -n)
  | ds => digitsVal ds

/-- The length extraction attempted inside the `single word` branch
(line 174): `int(query.split("longer than ")[1].split(" characters")[0])`.
`none` is the caught `IndexError` (fewer than two split segments) or
`ValueError` (unparsable integer). -/
def extractLonger (q : List Char) : Option Int :=
  match pySplit "longer than ".data q with
  | _ :: seg :: _ => pyInt ((pySplit " characters".data seg).headD [])
  | _ => none

/-- Match of `re.search(r"longer than (\d+) characters", q)` at one
position: the literal, then a maximal non-empty digit run, then the
closing literal.  (Backtracking the greedy `\d+` cannot help, because
the character after a shorter digit run would be a digit while the
closing literal starts with a space.) -/
def tryLongerThan (s : List Char) : Option Nat :=
  if ("longer than ".data).isPrefixOf s then
    let r := s.drop ("longer than ".data).length
    let ds := r.takeWhile Char.isDigit
    if ds.isEmpty then none
    else if (" characters".data).isPrefixOf (r.drop ds.length) then
      some (digitsToNat ds)
    else none
  else none

/-- `re.search` scan for `longer than (\d+) characters`: leftmost match. -/
def reLongerThan : List Char → Option Nat
  | [] => none
  | c :: rest =>
      match tryLongerThan (c :: rest) with
      | some n => some n
      | none => reLongerThan rest

/-- Match of `re.search(r"strings containing the letter ([a-z])", q)` at
one position. -/
def tryLetter (s : List Char) : Option Char :=
  if ("strings containing the letter ".data).isPrefixOf s then
    match s.drop ("strings containing the letter ".data).length with
    | c :: _ => if 'a' ≤ c ∧ c ≤ 'z' then some c else none
    | [] => none
  else none

/-- `re.search` scan for `strings containing the letter ([a-z])`. -/
def reContainingLetter : List Char → Option Char
  | [] => none
  | c :: rest =>
      match tryLetter (c :: rest) with
      | some ch => some ch
      | none => reContainingLetter rest

/-- Lines 183-185: overwrite `min_length` when the regular pattern
matches. -/
def ruleLongerThan (f : Filters) (q : List Char) : Filters :=
  match reLongerThan q with
  | some n => { f with min_length := some ((n : Int) + 1) }
  | none => f

/-- Lines 188-189: set `is_palindrome` when the phrase occurs. -/
def rulePalindromic (f : Filters) (q : List Char) : Filters :=
  if containsSub "palindromic strings".data q then
    { f with is_palindrome := some true }
  else f

/-- Lines 192-194: set `contains_character` when the letter pattern
matches. -/
def ruleLetter (f : Filters) (q : List Char) : Filters :=
  match reContainingLetter q with
  | some c => { f with contains_character := some (String.mk [c]) }
  | none => f

/-- Lines 197-198: set `contains_vowel` when the phrase occurs. -/
def ruleVowel (f : Filters) (q : List Char) : Filters :=
  if containsSub "contains a vowel".data q then
    { f with contains_vowel := some true }
  else f

/-- The detail string of the line 177-180 `HTTPException` (an f-string
over the lowercased query). -/
def cannotParseDetail (q : String) : String :=
  "Cannot parse query: \x27" ++ q ++ "\x27. Please specify a valid length."

/-- Embedding of `parse_natural_language_query` (lines 155-200): rules 1
and 2 are an if/elif pair; the remaining rules run unconditionally
afterwards unless the elif branch raised. -/
def parse_natural_language_query (query : String) : Except PyError Filters :=
  if query = "" then .ok {}
  else
    let q := (pyLower query).data
    let step1 : Except PyError Filters :=
      if containsSub "single word palindromic strings".data q then
        .ok { word_count := some 1, is_palindrome := some true }
      else if containsSub "single word".data q then
        match extractLonger q with
        | some n => .ok { word_count := some 1, min_length := some (n + 1) }
        | none => .error (.http 400 (cannotParseDetail (pyLower query)))
      else .ok {}
    match step1 with
    | .error e => .error e
    | .ok f0 => .ok (ruleVowel (ruleLetter (rulePalindromic (ruleLongerThan f0 q) q) q) q)

/-! ## Natural-language filtering (src/main.py lines 204-249)

The loop `for key, value in analysis_db.items():` binds `value` to the
stored record **dict**, not to its text.  Consequently
`value.split()` and `is_palindrome(value)` (which calls `value.lower()`)
raise `AttributeError`; `len(value)` is the number of keys of the record
dict; and `x in value` / `vowel in value` are membership tests over the
keys of the dict. -/

/-- The keys of a stored record dict (lines 68-81; note the source key
`created at`). -/
def recordDictKeys : List String := ["id", "value", "properties", "created at"]

def attrMsgSplit : String := "\x27dict\x27 object has no attribute \x27split\x27"

def attrMsgLower : String := "\x27dict\x27 object has no attribute \x27lower\x27"

/-- One iteration of the filtering loop body (lines 218-247) on the
record bound to `value`.  The content of the record itself is never consulted:
every access goes through the dict object itself (see the section
comment), so the outcome depends only on the filter dict. -/
def matchRecord (filters : Filters) (_value : Record) : Except PyError Bool :=
  if filters.word_count.isSome then
    .error (.attributeError (attrMsgSplit))
  else if filters.is_palindrome.isSome then
    .error (.attributeError (attrMsgLower))
  else
    let m1 := true
    let m2 := match filters.min_length with
      | some n => if (recordDictKeys.length : Int) < n then false else m1
      | none => m1
    let m3 := match filters.contains_character with
      | some c => if recordDictKeys.contains c then m2 else false
      | none => m2
    let m4 := match filters.contains_vowel with
      | some _ =>
          if "aeiou".data.any (fun v => recordDictKeys.contains (String.mk [v]))
          then m3 else false
      | none => m3
    .ok m4

/-- The filtering loop of `natural_language_filter` (lines 217-247): scan
the store in order, keep matches in a fresh dict, propagate the first
exception. -/
def nlfLoop (filters : Filters) : Store → Except PyError Store
  | [] => .ok []
  | (k, v) :: rest =>
      match matchRecord filters v with
      | .error e => .error e
      | .ok true =>
          match nlfLoop filters rest with
          | .error e => .error e
          | .ok out => .ok ((k, v) :: out)
      | .ok false => nlfLoop filters rest

/-- Embedding of the handler `natural_language_filter` (lines 204-249).
The `query` query parameter defaults to `None`; `if not query:` returns
the whole store for `None` and for the empty string. -/
def natural_language_filter (query : Option String) (db : Store) :
    Except PyError Store :=
  match query with
  | none => .ok db
  | some q =>
      if q = "" then .ok db
      else
        match parse_natural_language_query q with
        | .error e => .error e
        | .ok filters => nlfLoop filters db

/-- Value stored at a key of the frequency dict, 0 when absent. -/
def getCount : List (Char × Nat) → Char → Nat
  | [], _ => 0
  | (k, n) :: rest, c => if k = c then n else getCount rest c

/-- Specification-side filter predicate (the contract of the Query
Engine): a record matches when every *specified* field holds of it —
`is_palindrome` and `word_count` by exact match against the computed
properties, `min_length`/`max_length` as inclusive bounds on
`properties.length`; an unset field imposes no constraint. -/
def specFilterMatches (ip : Option Bool) (mn mx : Option Int) (wc : Option Int)
    (r : Record) : Bool :=
  (match ip with
   | some b => r.properties.is_palindrome == b
   | none => true) &&
  (match wc with
   | some n => (r.properties.word_count : Int) == n
   | none => true) &&
  (match mn with
   | some n => decide ((r.properties.length : Int) ≥ n)
   | none => true) &&
  (match mx with
   | some n => decide ((r.properties.length : Int) ≤ n)
   | none => true)

/-! ## Basic lemmas about the store and the encoder -/

set_option maxRecDepth 20000

theorem dictGet_dictSet_self (db : Store) (k : String) (v : Record) :
    dictGet (dictSet db k v) k = some v := by
  induction db with
  | nil => simp [dictSet, dictGet]
  | cons p rest ih =>
      obtain ⟨k', w⟩ := p
      by_cases h : k' = k
      · simp [dictSet, dictGet, h]
      · simp [dictSet, dictGet, h, ih]

theorem dictSet_ne_nil (db : Store) (k : String) (v : Record) :
    dictSet db k v ≠ [] := by
  cases db with
  | nil => simp [dictSet]
  | cons p rest =>
      obtain ⟨k', w⟩ := p
      by_cases h : k' = k <;> simp [dictSet, h]

theorem sha_encoder_length (t : String) : (sha_encoder t).length = 64 := by
  simp [sha_encoder, String.length, shaHex, hex8]

/-- `check_string` cannot fail: every error branch is dead, and the
lookup it returns is of the key it just wrote. -/
theorem check_string_fst (t : String) (db : Store) (now : Nat) :
    (check_string t db now).1 = .ok (mkRecord t now) := by
  simp [check_string, builtinIdInDb, textIsNone, textIsNotStr, dictGet_dictSet_self]

theorem check_string_snd (t : String) (db : Store) (now : Nat) :
    (check_string t db now).2 = dictSet db (sha_encoder t) (mkRecord t now) := by
  simp [check_string, builtinIdInDb, textIsNone, textIsNotStr, dictGet_dictSet_self]

theorem bump_keys (freq : List (Char × Nat)) (c : Char) :
    (bump freq c).map Prod.fst = freq.map Prod.fst := by
  induction freq with
  | nil => rfl
  | cons p rest ih =>
      obtain ⟨k, n⟩ := p
      by_cases h : k = c <;> simp [bump, h, ih]

theorem hasKey_iff_mem (freq : List (Char × Nat)) (c : Char) :
    hasKey freq c = true ↔ c ∈ freq.map Prod.fst := by
  induction freq with
  | nil => simp [hasKey]
  | cons p rest ih =>
      obtain ⟨k, n⟩ := p
      simp only [hasKey, List.map_cons, List.mem_cons, Bool.or_eq_true, beq_iff_eq, ih]
      constructor
      · rintro (h | h)
        · exact Or.inl h.symm
        · exact Or.inr h
      · rintro (h | h)
        · exact Or.inl h.symm
        · exact Or.inr h

theorem getCount_eq_zero (freq : List (Char × Nat)) (c : Char)
    (h : hasKey freq c = false) : getCount freq c = 0 := by
  induction freq with
  | nil => rfl
  | cons p rest ih =>
      obtain ⟨k, n⟩ := p
      simp only [hasKey, Bool.or_eq_false_iff, beq_eq_false_iff_ne, ne_eq] at h
      simp only [getCount, if_neg h.1, ih h.2]

theorem bump_getCount (freq : List (Char × Nat)) (c d : Char) :
    getCount (bump freq c) d =
      getCount freq d + (if d = c ∧ hasKey freq c = true then 1 else 0) := by
  induction freq with
  | nil => simp [bump, getCount, hasKey]
  | cons p rest ih =>
      obtain ⟨k, n⟩ := p
      by_cases hkc : k = c
      · subst hkc
        by_cases hkd : k = d
        · subst hkd
          simp [bump, getCount, hasKey]
        · have hdk : ¬ d = k := fun h => hkd h.symm
          simp [bump, getCount, hasKey, hkd, hdk]
      · by_cases hkd : k = d
        · subst hkd
          simp only [bump, if_neg hkc, getCount, hasKey]
          have : ¬ (k = c ∧ (k == c || hasKey rest c) = true) := fun h => hkc h.1
          rw [if_neg this]
          simp
        · simp only [bump, if_neg hkc, getCount, if_neg hkd, ih, hasKey]
          by_cases hdc : d = c
          · subst hdc
            have : (k == d) = false := by simp [hkd]
            simp [this]
          · simp [hdc]

theorem getCount_append (freq l : List (Char × Nat)) (d : Char) :
    getCount (freq ++ l) d =
      (if hasKey freq d then getCount freq d else getCount l d) := by
  induction freq with
  | nil => simp [getCount, hasKey]
  | cons p rest ih =>
      obtain ⟨k, n⟩ := p
      by_cases hkd : k = d
      · subst hkd
        simp [getCount, hasKey]
      · have : (k == d) = false := by simp [hkd]
        simp [getCount, hasKey, hkd, this, ih]

theorem freqStep_getCount (freq : List (Char × Nat)) (a d : Char) :
    getCount (freqStep freq a) d = getCount freq d + (if d = a then 1 else 0) := by
  by_cases h : hasKey freq a
  · rw [freqStep, if_pos h, bump_getCount]
    by_cases hda : d = a <;> simp [hda, h]
  · have hf : hasKey freq a = false := by simpa using h
    rw [freqStep, if_neg (by simp [hf]), getCount_append]
    by_cases hda : d = a
    · subst hda
      simp [hf, getCount_eq_zero freq d hf, getCount]
    · have hda' : ¬ a = d := fun h => hda h.symm
      by_cases hkd : hasKey freq d
      · simp [hkd, hda]
      · have hfd : hasKey freq d = false := by simpa using hkd
        simp [hfd, hda, getCount_eq_zero freq d hfd, getCount, hda']

theorem foldl_getCount (l : List Char) (freq : List (Char × Nat)) (c : Char) :
    getCount (l.foldl freqStep freq) c = getCount freq c + l.count c := by
  induction l generalizing freq with
  | nil => simp
  | cons a l' ih =>
      simp only [List.foldl_cons, ih, freqStep_getCount, List.count_cons]
      by_cases hca : c = a
      · simp [hca]
        omega
      · have : (a == c) = false := beq_eq_false_iff_ne.mpr (Ne.symm hca)
        simp [hca, this]

theorem freqStep_keys (freq : List (Char × Nat)) (a : Char) :
    (freqStep freq a).map Prod.fst =
      (if hasKey freq a then freq.map Prod.fst else freq.map Prod.fst ++ [a]) := by
  by_cases h : hasKey freq a
  · simp [freqStep, h, bump_keys]
  · simp [freqStep, h]

theorem foldl_mem_keys (l : List Char) (freq : List (Char × Nat)) (c : Char) :
    c ∈ (l.foldl freqStep freq).map Prod.fst ↔ c ∈ freq.map Prod.fst ∨ c ∈ l := by
  induction l generalizing freq with
  | nil => simp
  | cons a l' ih =>
      simp only [List.foldl_cons, ih, freqStep_keys, List.mem_cons]
      by_cases h : hasKey freq a
      · rw [if_pos h]
        constructor
        · rintro (hm | hm)
          · exact Or.inl hm
          · exact Or.inr (Or.inr hm)
        · rintro (hm | hm | hm)
          · exact Or.inl hm
          · subst hm
            exact Or.inl ((hasKey_iff_mem freq c).mp h)
          · exact Or.inr hm
      · rw [if_neg h]
        simp only [List.mem_append, List.mem_singleton]
        tauto

theorem foldl_keys_nodup (l : List Char) (freq : List (Char × Nat))
    (h : (freq.map Prod.fst).Nodup) : ((l.foldl freqStep freq).map Prod.fst).Nodup := by
  induction l generalizing freq with
  | nil => exact h
  | cons a l' ih =>
      simp only [List.foldl_cons]
      apply ih
      rw [freqStep_keys]
      by_cases ha : hasKey freq a
      · rw [if_pos ha]
        exact h
      · rw [if_neg ha]
        have hnm : a ∉ freq.map Prod.fst := fun hm => ha ((hasKey_iff_mem freq a).mpr hm)
        simp [List.nodup_append, h, hnm]

theorem bump_sum (freq : List (Char × Nat)) (c : Char) (h : hasKey freq c = true) :
    ((bump freq c).map Prod.snd).sum = ((freq.map Prod.snd).sum) + 1 := by
  induction freq with
  | nil => simp [hasKey] at h
  | cons p rest ih =>
      obtain ⟨k, n⟩ := p
      by_cases hkc : k = c
      · simp [bump, hkc]
        omega
      · have : (k == c) = false := beq_eq_false_iff_ne.mpr hkc
        simp only [hasKey, this, Bool.false_or] at h
        simp [bump, hkc, ih h]
        omega

theorem foldl_sum (l : List Char) (freq : List (Char × Nat)) :
    ((l.foldl freqStep freq).map Prod.snd).sum = (freq.map Prod.snd).sum + l.length := by
  induction l generalizing freq with
  | nil => simp
  | cons a l' ih =>
      simp only [List.foldl_cons, ih]
      have hstep : ((freqStep freq a).map Prod.snd).sum = (freq.map Prod.snd).sum + 1 := by
        by_cases h : hasKey freq a
        · rw [freqStep, if_pos h]
          exact bump_sum freq a h
        · rw [freqStep, if_neg h]
          simp
      rw [hstep]
      simp
      omega

theorem mem_getCount (freq : List (Char × Nat)) (c : Char) (n : Nat)
    (hnd : (freq.map Prod.fst).Nodup) (hm : (c, n) ∈ freq) : getCount freq c = n := by
  induction freq with
  | nil => simp at hm
  | cons p rest ih =>
      obtain ⟨k, m⟩ := p
      simp only [List.map_cons, List.nodup_cons] at hnd
      rcases List.mem_cons.mp hm with hh | hh
      · injection hh with h1 h2
        subst h1
        subst h2
        simp [getCount]
      · have hck : ¬ k = c := by
          intro hk
          subst hk
          exact hnd.1 (List.mem_map.mpr ⟨(k, n), hh, rfl⟩)
        simp only [getCount, if_neg hck]
        exact ih hnd.2 hh
theorem freq_keys_length (t : String) :
    (count_char_frequency_dict t).length = unique_chars t := by
  classical
  have hnd : ((count_char_frequency_dict t).map Prod.fst).Nodup :=
    foldl_keys_nodup t.data [] (by simp)
  have hmem : ∀ c, c ∈ (count_char_frequency_dict t).map Prod.fst ↔ c ∈ t.data := by
    intro c
    rw [count_char_frequency_dict, foldl_mem_keys]
    simp
  have h1 : (count_char_frequency_dict t).length =
      ((count_char_frequency_dict t).map Prod.fst).length := by simp
  have h2 : ((count_char_frequency_dict t).map Prod.fst).toFinset =
      t.data.dedup.toFinset := by
    ext c
    simp only [List.mem_toFinset, hmem, List.mem_dedup]
  rw [h1, ← List.toFinset_card_of_nodup hnd, h2,
      List.toFinset_card_of_nodup t.data.nodup_dedup, unique_chars]

/-- C10: for every record created by `check_string`, the character
counts of the frequency map sum to `properties.length`, its number of keys is
`properties.unique_characters`, and the count at each key is the number
of occurrences of that character in the text. -/
theorem c10_frequency_map_invariants (t : String) (now : Nat) :
    (((mkRecord t now).properties.character_frequency_map.map Prod.snd).sum =
        (mkRecord t now).properties.length) ∧
    ((mkRecord t now).properties.character_frequency_map.length =
        (mkRecord t now).properties.unique_characters) ∧
    (∀ c n, (c, n) ∈ (mkRecord t now).properties.character_frequency_map →
        n = t.data.count c) := by
  refine ⟨?_, ?_, ?_⟩
  · show ((count_char_frequency_dict t).map Prod.snd).sum = t.length
    rw [count_char_frequency_dict, foldl_sum]
    simp only [List.map_nil, List.sum_nil, Nat.zero_add]
    rfl
  · exact freq_keys_length t
  · intro c n hm
    have hnd : ((count_char_frequency_dict t).map Prod.fst).Nodup :=
      foldl_keys_nodup t.data [] (by simp)
    have hv := mem_getCount (count_char_frequency_dict t) c n hnd hm
    rw [count_char_frequency_dict, foldl_getCount] at hv
    simpa [getCount] using hv.symm

/-- Witness for `c10_frequency_map_invariants` at the example of the specification itself, `"aab"`: `('a', 2)` is a key-count pair of the stored map, and
the theorem yields that 2 is the number of occurrences of `'a'`. -/
theorem c10_witness :
    (('a', 2) ∈ (mkRecord "aab" 0).properties.character_frequency_map) ∧
    2 = "aab".data.count 'a' :=
  ⟨by decide, (c10_frequency_map_invariants "aab" 0).2.2 'a' 2 (by decide)⟩

/-! ## C1 and C2: analyze-and-store behaviour -/

/-- C1: analyzing the same text a second time does **not** fail with
`Conflict`: the handler writes the record into the store before its dead
conflict check (see `builtinIdInDb`), returns it with success, and the
stored record now carries the creation tick of the second call.  Evaluated at
the failing input: text `"a"` analyzed at tick 0 and again at tick 1. -/
theorem c1_second_analyze_succeeds :
    ((check_string "a" ((check_string "a" ([] : Store) 0).2) 1).1 =
        .ok (mkRecord "a" 1)) ∧
    ((check_string "a" ((check_string "a" ([] : Store) 0).2) 1).2 =
        [(sha_encoder "a", mkRecord "a" 1)]) := by
  have h0 : (check_string "a" ([] : Store) 0).2 = [(sha_encoder "a", mkRecord "a" 0)] := by
    rw [check_string_snd]
    rfl
  constructor
  · rw [check_string_fst]
  · rw [check_string_snd, h0]
    simp [dictSet]

/-- C2: whenever the analyze-and-store operation fails, the store is left
exactly as it was: no new or partial record is stored by the failed
call.  (In this code base the only failing calls are the validation
rejections of a missing or non-string `text`; a duplicate text does not
fail, see `c1_second_analyze_succeeds`.) -/
theorem c2_failed_analyze_leaves_store (body : ReqText) (db : Store) (now : Nat)
    (e : PyError) (h : (analyze_and_store body db now).1 = .error e) :
    (analyze_and_store body db now).2 = db := by
  cases body with
  | missing => rfl
  | notStr => rfl
  | str t =>
      rw [analyze_and_store] at h ⊢
      rw [check_string_fst] at h
      cases h

/-- Witness for `c2_failed_analyze_leaves_store`: a request with a
missing `text` field against a one-record store fails and leaves the
store unchanged. -/
theorem c2_witness :
    ((analyze_and_store ReqText.missing [("k", mkRecord "hi" 0)] 1).1 =
        .error (.http 422 "Field required")) ∧
    ((analyze_and_store ReqText.missing [("k", mkRecord "hi" 0)] 1).2 =
        [("k", mkRecord "hi" 0)]) :=
  ⟨rfl, c2_failed_analyze_leaves_store ReqText.missing [("k", mkRecord "hi" 0)] 1
    (.http 422 "Field required") rfl⟩

/-! ## C7: the get operation -/

/-- Shared helper: after analyzing `t` into a fresh store, looking the
record up by the raw text `t` misses, because the single key is the
64-character hexdigest while `t` has a different length. -/
theorem get_by_text_misses (t : String) (now : Nat) (hlen : t.length ≠ 64) :
    get_string t ((check_string t ([] : Store) now).2) =
      .error (.http 404 "String does not exist in the system") := by
  have hne : ¬ sha_encoder t = t := by
    intro h
    apply hlen
    rw [← h]
    exact sha_encoder_length t
  rw [check_string_snd]
  simp [dictSet, get_string, dictGet, hne]

/-- C7 (amended): `get_string` is an identifier lookup only.  After
analyzing `t`, lookup by the content-hash id returns the record, while
lookup by the raw text itself fails with 404 whenever the text is not 64
characters long (no stored key can equal it, since every id is a
64-character hexdigest). -/
theorem c7_get_by_id_only (t : String) (db : Store) (now : Nat)
    (hlen : t.length ≠ 64) :
    (get_string (sha_encoder t) ((check_string t db now).2) = .ok (mkRecord t now)) ∧
    (get_string t ((check_string t ([] : Store) now).2) =
        .error (.http 404 "String does not exist in the system")) := by
  constructor
  · rw [check_string_snd, get_string, dictGet_dictSet_self]
  · exact get_by_text_misses t now hlen

/-- Witness for `c7_get_by_id_only` at `t = "hello"`. -/
theorem c7_witness :
    ("hello".length ≠ 64) ∧
    ((get_string (sha_encoder "hello") ((check_string "hello" ([] : Store) 0).2) =
        .ok (mkRecord "hello" 0)) ∧
     (get_string "hello" ((check_string "hello" ([] : Store) 0).2) =
        .error (.http 404 "String does not exist in the system"))) :=
  ⟨by decide, c7_get_by_id_only "hello" [] 0 (by decide)⟩

/-- C7 counterexample to the claim as stated: a record with text
`"hello"` is stored, yet looking it up by that raw text fails with 404 —
lookup by raw text is not supported by the code. -/
theorem c7_counterexample :
    (get_string "hello" ((check_string "hello" ([] : Store) 0).2) =
        .error (.http 404 "String does not exist in the system")) ∧
    (∃ p ∈ (check_string "hello" ([] : Store) 0).2, p.2.value = "hello") := by
  constructor
  · exact get_by_text_misses "hello" 0 (by decide)
  · refine ⟨(sha_encoder "hello", mkRecord "hello" 0), ?_, rfl⟩
    rw [check_string_snd]
    simp [dictSet]

/-! ## C6, C8, C9: structured filtering -/

/-- C6 (amended): with only `contains_character` specified, `filter_string`
returns exactly the stored records whose text contains the given string
as a **case-sensitive** substring (`contains_character in string["value"]`,
line 149). -/
theorem c6_contains_character_case_sensitive (c : String) (db : Store) :
    filter_string none none none none (some c) db =
      .ok ((db.map Prod.snd).filter (fun r => containsSub c.data r.value.data)) := by
  show Except.ok ((db.map Prod.snd).filter (filterPred none none none none (some c))) = _
  exact congrArg Except.ok (List.filter_congr (fun r _ => by simp [filterPred]))

/-- C6 counterexample to the claim as stated: filtering on `"a"` does not
return the stored record whose text is `"A"` (the test in the code is
case-sensitive), although a case-insensitive test would match it. -/
theorem c6_counterexample :
    (filter_string none none none none (some "a") [("k", mkRecord "A" 0)] = .ok []) ∧
    (containsSub "a".data (pyLower "A").data = true) := by
  constructor
  · rfl
  · decide

/-- C8: structured filtering fails precisely when both bounds are given
and inverted, the failure is the 400 boundary-validation error raised
before any record is examined, and no other combination of filter values
can fail. -/
theorem c8_boundary_validation (ip : Option Bool) (mn mx : Option Int)
    (wc : Option Int) (cc : Option String) (db : Store) :
    ((∃ e, filter_string ip mn mx wc cc db = .error e) ↔
      (∃ a b, mn = some a ∧ mx = some b ∧ a > b)) ∧
    (∀ e, filter_string ip mn mx wc cc db = .error e →
      e = .http 400 " Invalid query parameter values or types") := by
  rcases mn with _ | a
  · constructor
    · constructor
      · rintro ⟨e, he⟩
        simp [filter_string] at he
      · rintro ⟨a, b, ha, hb, hab⟩
        cases ha
    · intro e he
      simp [filter_string] at he
  · rcases mx with _ | b
    · constructor
      · constructor
        · rintro ⟨e, he⟩
          simp [filter_string] at he
        · rintro ⟨a', b, ha, hb, hab⟩
          cases hb
      · intro e he
        simp [filter_string] at he
    · by_cases hab : a > b
      · constructor
        · constructor
          · intro _
            exact ⟨a, b, rfl, rfl, hab⟩
          · intro _
            exact ⟨.http 400 " Invalid query parameter values or types", by
              simp [filter_string, hab]⟩
        · intro e he
          simp [filter_string, hab] at he
          exact he.symm
      · constructor
        · constructor
          · rintro ⟨e, he⟩
            simp [filter_string, hab] at he
          · rintro ⟨a', b', ha, hb, hab'⟩
            cases ha
            cases hb
            exact absurd hab' hab
        · intro e he
          simp [filter_string, hab] at he

/-- Witness for `c8_boundary_validation`: `min_length = 5` with
`max_length = 2` fails with the 400 boundary error (the example given in the specification). -/
theorem c8_witness :
    filter_string none (some 5) (some 2) none none [] =
      .error (.http 400 " Invalid query parameter values or types") := by
  obtain ⟨e, he⟩ :=
    (c8_boundary_validation none (some 5) (some 2) none none []).1.mpr
      ⟨5, 2, rfl, rfl, by decide⟩
  have hv := (c8_boundary_validation none (some 5) (some 2) none none []).2 e he
  rw [hv] at he
  exact he

/-- C9: for a store of records as created by `check_string` (the
well-formedness hypothesis) and bounds that pass validation, structured
filtering returns exactly the subsequence of stored records — in store order — satisfying all specified fields of the specification
predicate `specFilterMatches` (with `contains_character` unset; its
semantics is settled separately, see
`c6_contains_character_case_sensitive`). -/
theorem c9_filter_conjunctive (ip : Option Bool) (mn mx wc : Option Int) (db : Store)
    (hw : ∀ p ∈ db, (p.2).properties = computeProps (p.2).value)
    (hr : ∀ a b, mn = some a → mx = some b → a ≤ b) :
    filter_string ip mn mx wc none db =
      .ok ((db.map Prod.snd).filter (specFilterMatches ip mn mx wc)) := by
  have hbad : (match mn, mx with
      | some a, some b => decide (a > b)
      | _, _ => false) = false := by
    rcases mn with _ | a
    · rfl
    · rcases mx with _ | b
      · rfl
      · simp
        exact hr a b rfl rfl
  have hlen : ∀ p ∈ db, (p.2).value.length = (p.2).properties.length := by
    intro p hp
    rw [hw p hp]
    rfl
  have hok : filter_string ip mn mx wc none db =
      .ok ((db.map Prod.snd).filter (filterPred ip mn mx wc none)) := by
    rcases mn with _ | a
    · rfl
    · rcases mx with _ | b
      · rfl
      · simp only at hbad
        simp [filter_string, hbad]
  rw [hok]
  congr 1
  apply List.filter_congr
  intro r hr'
  obtain ⟨p, hp, hpr⟩ := List.mem_map.mp hr'
  have hl : r.value.length = r.properties.length := by
    rw [← hpr]
    exact hlen p hp
  simp [filterPred, specFilterMatches, hl]

/-- Witness for `c9_filter_conjunctive` on a two-record store built from
`"racecar"` and `"ab"` with all four fields specified. -/
theorem c9_witness :
    (∀ p ∈ ([("k1", mkRecord "racecar" 0), ("k2", mkRecord "ab" 1)] : Store),
        (p.2).properties = computeProps (p.2).value) ∧
    (∀ a b : Int, some (3 : Int) = some a → some (10 : Int) = some b → a ≤ b) ∧
    filter_string (some true) (some 3) (some 10) (some 1) none
        [("k1", mkRecord "racecar" 0), ("k2", mkRecord "ab" 1)] =
      .ok ((([("k1", mkRecord "racecar" 0), ("k2", mkRecord "ab" 1)] : Store).map
          Prod.snd).filter (specFilterMatches (some true) (some 3) (some 10) (some 1))) := by
  have hw : ∀ p ∈ ([("k1", mkRecord "racecar" 0), ("k2", mkRecord "ab" 1)] : Store),
      (p.2).properties = computeProps (p.2).value := by
    intro p hp
    simp only [List.mem_cons, List.not_mem_nil, or_false] at hp
    rcases hp with rfl | rfl <;> rfl
  have hr : ∀ a b : Int, some (3 : Int) = some a → some (10 : Int) = some b → a ≤ b := by
    intro a b ha hb
    cases ha
    cases hb
    decide
  exact ⟨hw, hr, c9_filter_conjunctive (some true) (some 3) (some 10) (some 1) _ hw hr⟩

/-! ## C3, C4, C5: natural-language querying -/

theorem matchRecord_empty (v : Record) : matchRecord {} v = .ok true := rfl

theorem nlfLoop_empty (db : Store) : nlfLoop {} db = .ok db := by
  induction db with
  | nil => rfl
  | cons p rest ih =>
      obtain ⟨k, v⟩ := p
      rw [nlfLoop, matchRecord_empty, ih]

theorem matchRecord_wc (f : Filters) (v : Record) (h : f.word_count.isSome) :
    matchRecord f v = .error (.attributeError (attrMsgSplit)) := by
  rw [matchRecord, if_pos h]

theorem nlfLoop_wc (f : Filters) (h : f.word_count.isSome) (k : String) (v : Record)
    (rest : Store) :
    nlfLoop f ((k, v) :: rest) = .error (.attributeError (attrMsgSplit)) := by
  rw [nlfLoop, matchRecord_wc f v h]

/-- C4 (amended): an empty query, a `None` query, and any non-empty query
that matches none of the translation rules (so that the parsed filter
set is empty) all make `natural_language_filter` return every stored
record; no `InvalidArgument` is raised for unsupported queries. -/
theorem c4_empty_filters_return_all (q : Option String) (db : Store)
    (h : q = none ∨ ∃ s, q = some s ∧ parse_natural_language_query s = .ok {}) :
    natural_language_filter q db = .ok db := by
  rcases h with rfl | ⟨s, rfl, hs⟩
  · rfl
  · rw [natural_language_filter]
    by_cases hse : s = ""
    · rw [if_pos hse]
    · rw [if_neg hse, hs]
      exact nlfLoop_empty db

/-- Witness for `c4_empty_filters_return_all`: the whitespace-only query
`"   "` matches no rule, parses to the empty filter set, and returns the
whole store. -/
theorem c4_witness :
    (parse_natural_language_query "   " = .ok {}) ∧
    natural_language_filter (some "   ") [("k", mkRecord "hi" 0)] =
      .ok [("k", mkRecord "hi" 0)] :=
  ⟨by decide, c4_empty_filters_return_all (some "   ") [("k", mkRecord "hi" 0)]
    (Or.inr ⟨"   ", rfl, by decide⟩)⟩

/-- C4 counterexample to the claim as stated: the non-empty query
`"hello there"` matches none of the translation rules, yet the
translation does **not** fail with `InvalidArgument` — it yields the
empty filter set and the endpoint returns every stored record. -/
theorem c4_counterexample :
    (parse_natural_language_query "hello there" = .ok {}) ∧
    natural_language_filter (some "hello there") [("k", mkRecord "abc" 0)] =
      .ok [("k", mkRecord "abc" 0)] := by
  constructor
  · decide
  · rfl

/-- C3: the query `"single word palindromic strings"` translates to
exactly the filter set `{word_count = 1, is_palindrome = true}`, but
applying it to the store holding the records for `"racecar"` and
`"hello world"` does not return the `"racecar"` record: the filtering
loop calls `.split()` on the record dict bound to `value` (line 223) and
the request dies with an `AttributeError`. -/
theorem c3_single_word_palindromic :
    (parse_natural_language_query "single word palindromic strings" =
        .ok { word_count := some 1, is_palindrome := some true }) ∧
    (natural_language_filter (some "single word palindromic strings")
        ((check_string "hello world" ((check_string "racecar" ([] : Store) 0).2) 1).2) =
      .error (.attributeError (attrMsgSplit))) := by
  have hp : parse_natural_language_query "single word palindromic strings" =
      .ok { word_count := some 1, is_palindrome := some true } := by decide
  refine ⟨hp, ?_⟩
  rw [natural_language_filter, if_neg (by decide), hp]
  rw [check_string_snd, check_string_snd]
  have h1 : dictSet ([] : Store) (sha_encoder "racecar") (mkRecord "racecar" 0) =
      [(sha_encoder "racecar", mkRecord "racecar" 0)] := rfl
  rw [h1]
  by_cases h : sha_encoder "racecar" = sha_encoder "hello world"
  · rw [dictSet, if_pos h]
    exact nlfLoop_wc { word_count := some 1, is_palindrome := some true } (by rfl) _ _ _
  · rw [dictSet, if_neg h]
    exact nlfLoop_wc { word_count := some 1, is_palindrome := some true } (by rfl) _ _ _

theorem ruleLongerThan_word_count (f : Filters) (q : List Char) :
    (ruleLongerThan f q).word_count = f.word_count := by
  rw [ruleLongerThan]
  cases reLongerThan q <;> rfl

theorem rulePalindromic_word_count (f : Filters) (q : List Char) :
    (rulePalindromic f q).word_count = f.word_count := by
  rw [rulePalindromic]
  by_cases h : containsSub "palindromic strings".data q <;> simp [h]

theorem ruleLetter_word_count (f : Filters) (q : List Char) :
    (ruleLetter f q).word_count = f.word_count := by
  rw [ruleLetter]
  cases reContainingLetter q <;> rfl

theorem ruleVowel_word_count (f : Filters) (q : List Char) :
    (ruleVowel f q).word_count = f.word_count := by
  rw [ruleVowel]
  by_cases h : containsSub "contains a vowel".data q <;> simp [h]

theorem ruleLongerThan_min_isSome (f : Filters) (q : List Char)
    (h : f.min_length.isSome) : (ruleLongerThan f q).min_length.isSome := by
  rw [ruleLongerThan]
  cases reLongerThan q <;> simp [h]

theorem rulePalindromic_min (f : Filters) (q : List Char) :
    (rulePalindromic f q).min_length = f.min_length := by
  rw [rulePalindromic]
  by_cases h : containsSub "palindromic strings".data q <;> simp [h]

theorem ruleLetter_min (f : Filters) (q : List Char) :
    (ruleLetter f q).min_length = f.min_length := by
  rw [ruleLetter]
  cases reContainingLetter q <;> rfl

theorem ruleVowel_min (f : Filters) (q : List Char) :
    (ruleVowel f q).min_length = f.min_length := by
  rw [ruleVowel]
  by_cases h : containsSub "contains a vowel".data q <;> simp [h]

/-- C5 (amended): on a query containing `"single word"` but not
`"single word palindromic strings"`, the translator fails with the 400
unparsable-length error **iff** the length extraction
`int(query.split("longer than ")[1].split(" characters")[0])` fails —
which happens both when no integer follows and when `"longer than "` is
absent altogether (the caught `IndexError`); when the extraction
succeeds, the translation succeeds with `word_count = 1` and a
`min_length` set. -/
theorem c5_single_word_branch (query : String)
    (h1 : containsSub "single word".data (pyLower query).data = true)
    (h2 : containsSub "single word palindromic strings".data (pyLower query).data = false) :
    ((parse_natural_language_query query =
        .error (.http 400 (cannotParseDetail (pyLower query)))) ↔
      extractLonger (pyLower query).data = none) ∧
    (∀ f, parse_natural_language_query query = .ok f →
      f.word_count = some 1 ∧ ∃ m, f.min_length = some m) := by
  have hne : query ≠ "" := by
    intro h
    subst h
    exact absurd h1 (by decide)
  cases hE : extractLonger (pyLower query).data with
  | none =>
      have hp : parse_natural_language_query query =
          .error (.http 400 (cannotParseDetail (pyLower query))) := by
        rw [parse_natural_language_query, if_neg hne]
        simp only [h2, h1, hE, Bool.false_eq_true, if_false, if_true]
      rw [hp]
      refine ⟨⟨fun _ => rfl, fun _ => rfl⟩, ?_⟩
      intro f hf
      cases hf
  | some n =>
      have hp : parse_natural_language_query query =
          .ok (ruleVowel (ruleLetter (rulePalindromic (ruleLongerThan
            { word_count := some 1, min_length := some (n + 1) }
            (pyLower query).data) (pyLower query).data) (pyLower query).data)
            (pyLower query).data) := by
        rw [parse_natural_language_query, if_neg hne]
        simp only [h2, h1, hE, Bool.false_eq_true, if_false, if_true]
      rw [hp]
      constructor
      · constructor
        · intro h
          cases h
        · intro h
          cases h
      · intro f hf
        injection hf with hf
        subst hf
        constructor
        · rw [ruleVowel_word_count, ruleLetter_word_count, rulePalindromic_word_count,
              ruleLongerThan_word_count]
        · have : (ruleVowel (ruleLetter (rulePalindromic (ruleLongerThan
              { word_count := some 1, min_length := some (n + 1) }
              (pyLower query).data) (pyLower query).data) (pyLower query).data)
              (pyLower query).data).min_length.isSome := by
            rw [ruleVowel_min, ruleLetter_min, rulePalindromic_min]
            exact ruleLongerThan_min_isSome _ _ (by rfl)
          exact Option.isSome_iff_exists.mp this

/-- C5 counterexample to the claim as stated: the query
`"single word strings"` contains `"single word"` and no `"longer than"`
phrase at all, yet the translator fails with the 400 unparsable-length
error instead of succeeding with `word_count = 1`. -/
theorem c5_counterexample :
    parse_natural_language_query "single word strings" =
      .error (.http 400 (cannotParseDetail "single word strings")) := by
  decide

/-- Witness for `c5_single_word_branch` at the query
`"single word strings longer than 10 characters"`. -/
theorem c5_witness :
    (containsSub "single word".data
        (pyLower "single word strings longer than 10 characters").data = true) ∧
    (containsSub "single word palindromic strings".data
        (pyLower "single word strings longer than 10 characters").data = false) ∧
    (((parse_natural_language_query "single word strings longer than 10 characters" =
        .error (.http 400 (cannotParseDetail
          (pyLower "single word strings longer than 10 characters")))) ↔
      extractLonger (pyLower "single word strings longer than 10 characters").data = none) ∧
     (∀ f, parse_natural_language_query "single word strings longer than 10 characters" =
        .ok f → f.word_count = some 1 ∧ ∃ m, f.min_length = some m)) :=
  ⟨by decide, by decide,
    c5_single_word_branch "single word strings longer than 10 characters"
      (by decide) (by decide)⟩
